import Mathlib

set_option maxRecDepth 100000

/-!
Verification development for the telemetry acquisition core of the `ira`
application (C sources: `src/irsdk` and the YAML session-metadata parser).

The C code is shallowly embedded:
* machine integers become `Int`/`Nat` (the C `int` sentinel `INT_MAX` is the
  literal `2147483647`);
* the shared-memory header read by `irsdk_get_new_data` is passed in
  explicitly: `status` is the header's status bitfield, `ticks` is the list of
  the first `num_buf` buffer descriptors' `tick_count` fields as observed by
  the selection scan, and `copyTicks n` is the value returned by the n-th
  re-read of the selected descriptor's `tick_count` inside the copy loop (the
  producer may race with the reader there, so these reads are an oracle);
* C strings become `List Char` (the bytes up to the NUL terminator, so the
  lists contain no `'\x00'`); pointers into a string become `Option Nat`
  indices; out-parameters become returned values.
-/

/- ------------------------------------------------------------------ -/
/- Frame reader: `irsdk_get_new_data` (irsdk.c)                        -/
/- ------------------------------------------------------------------ -/

/-- The reset value of `g_last_tick_count` (C `INT_MAX`). -/
def INT_MAX : Int := 2147483647

/-- Status bitfield flag: bit 0 means the producer is connected. -/
def IRSDK_ST_CONNECTED : Int := 1

/-- One iteration of the C selection loop:
`if (var_buf[latest].tick_count < var_buf[i].tick_count) latest = i;`. -/
def latestStep (ticks : List Int) (latest i : Nat) : Nat :=
  if ticks.getD latest 0 < ticks.getD i 0 then i else latest

/-- `latest` after the selection loop of `irsdk_get_new_data`
(`for (i = 1; i < num_buf; i++) ...` starting from `latest = 0`):
a fold of `latestStep` over the loop indices `1 .. num_buf - 1`. -/
def findLatestBuf (ticks : List Int) : Nat :=
  (List.range' 1 (ticks.length - 1)).foldl (latestStep ticks) 0

/-- Observable outcome of one `irsdk_get_new_data` call: the returned Bool,
the final value of `g_last_tick_count`, and how many `memcpy` calls ran. -/
structure PollResult where
  ret : Bool
  lastTickCount : Int
  copies : Nat
deriving DecidableEq, Repr

/-- Shallow embedding of `irsdk_get_new_data` (irsdk.c).
`ready` is the value of `g_is_initialized || irsdk_startup()`; `hasData`
says whether the destination pointer `data` is non-null; `lastTickCount`
is the entry value of `g_last_tick_count`.  The bit test
`status & IRSDK_ST_CONNECTED` is `status % 2` (bit 0 of a two's-complement
int).  `ticks.getD latest 0` is the descriptor tick count re-read outside
the copy loop; `copyTicks 0/1` are the reads of attempt 0 of the copy loop
(before/after the `memcpy`) and `copyTicks 2/3` those of attempt 1. -/
def irsdk_get_new_data (ready : Bool) (status : Int) (ticks : List Int)
    (copyTicks : Nat → Int) (hasData : Bool) (lastTickCount : Int) : PollResult :=
  if ready then
    if status % 2 = 0 then
      { ret := false, lastTickCount := INT_MAX, copies := 0 }
    else
      let latest := findLatestBuf ticks
      let t := ticks.getD latest 0
      if lastTickCount < t then
        if hasData then
          let cur0 := copyTicks 0
          if cur0 = copyTicks 1 then
            { ret := true, lastTickCount := cur0, copies := 1 }
          else
            let cur1 := copyTicks 2
            if cur1 = copyTicks 3 then
              { ret := true, lastTickCount := cur1, copies := 2 }
            else
              { ret := false, lastTickCount := lastTickCount, copies := 2 }
        else
          { ret := true, lastTickCount := t, copies := 0 }
      else if lastTickCount > t then
        { ret := false, lastTickCount := t, copies := 0 }
      else
        { ret := false, lastTickCount := lastTickCount, copies := 0 }
  else
    { ret := false, lastTickCount := lastTickCount, copies := 0 }

/-- C1: with a non-null destination and a selected tick newer than the
last-seen marker, a mismatch between the tick read before the first copy and
the re-read after it causes exactly one more copy attempt (two `memcpy` calls
in total); if the second attempt is also inconsistent the call returns false
with `g_last_tick_count` unchanged, and (the embedding being a total
function) no failure beyond the false return reaches the caller. -/
theorem irsdk_get_new_data_torn_retry (status lastTick : Int) (ticks : List Int)
    (copyTicks : Nat → Int)
    (hconn : status % 2 ≠ 0)
    (hnew : lastTick < ticks.getD (findLatestBuf ticks) 0)
    (htorn : copyTicks 0 ≠ copyTicks 1) :
    (irsdk_get_new_data true status ticks copyTicks true lastTick).copies = 2 ∧
      (copyTicks 2 ≠ copyTicks 3 →
        (irsdk_get_new_data true status ticks copyTicks true lastTick).ret = false ∧
        (irsdk_get_new_data true status ticks copyTicks true lastTick).lastTickCount
          = lastTick) := by
  unfold irsdk_get_new_data
  simp only [if_true, if_neg hconn, if_pos hnew, htorn, ite_false]
  constructor
  · split <;> rfl
  · intro h2
    rw [if_neg h2]
    exact ⟨rfl, rfl⟩

/-- Witness for C1 at a concrete racing read sequence. -/
theorem irsdk_get_new_data_torn_retry_witness :
    (irsdk_get_new_data true 1 [10] (fun n => (10 : Int) + n) true 5).copies = 2 ∧
      (irsdk_get_new_data true 1 [10] (fun n => (10 : Int) + n) true 5).ret = false ∧
      (irsdk_get_new_data true 1 [10] (fun n => (10 : Int) + n) true 5).lastTickCount
        = 5 := by
  have h := irsdk_get_new_data_torn_retry 1 5 [10] (fun n => (10 : Int) + n)
    (by decide) (by decide) (by decide)
  exact ⟨h.1, h.2 (by decide)⟩

/-- C2: whenever the header's connected bit (bit 0 of `status`) is clear,
`irsdk_get_new_data` returns false and resets `g_last_tick_count` to the
sentinel `INT_MAX`, regardless of the buffer descriptors, the destination
pointer and the racing reads. -/
theorem irsdk_get_new_data_disconnected (status lastTick : Int) (ticks : List Int)
    (copyTicks : Nat → Int) (hasData : Bool)
    (hdisc : status % 2 = 0) :
    (irsdk_get_new_data true status ticks copyTicks hasData lastTick).ret = false ∧
      (irsdk_get_new_data true status ticks copyTicks hasData lastTick).lastTickCount
        = INT_MAX := by
  unfold irsdk_get_new_data
  rw [if_pos rfl, if_pos hdisc]
  exact ⟨rfl, rfl⟩

/-- Witness for C2 with a nonempty newer buffer that is nevertheless ignored. -/
theorem irsdk_get_new_data_disconnected_witness :
    (irsdk_get_new_data true 4 [99] (fun _ => (99 : Int)) true 5).ret = false ∧
      (irsdk_get_new_data true 4 [99] (fun _ => (99 : Int)) true 5).lastTickCount
        = INT_MAX :=
  irsdk_get_new_data_disconnected 4 5 [99] (fun _ => (99 : Int)) true (by decide)

/-- C3: when the selected freshest buffer's tick count is strictly below the
last-seen marker, `irsdk_get_new_data` stores that observed tick count in
`g_last_tick_count`, returns false, and performs no copy (zero `memcpy`
calls); the embedding is a total function, so the path cannot raise. -/
theorem irsdk_get_new_data_tick_regression (status lastTick : Int) (ticks : List Int)
    (copyTicks : Nat → Int) (hasData : Bool)
    (hconn : status % 2 ≠ 0)
    (hreg : ticks.getD (findLatestBuf ticks) 0 < lastTick) :
    (irsdk_get_new_data true status ticks copyTicks hasData lastTick).ret = false ∧
      (irsdk_get_new_data true status ticks copyTicks hasData lastTick).lastTickCount
        = ticks.getD (findLatestBuf ticks) 0 ∧
      (irsdk_get_new_data true status ticks copyTicks hasData lastTick).copies = 0 := by
  unfold irsdk_get_new_data
  rw [if_pos rfl, if_neg hconn, if_neg (by exact not_lt.mpr (le_of_lt hreg)),
    if_pos hreg]
  exact ⟨rfl, rfl, rfl⟩

/-- Witness for C3: marker 1000, freshest tick 3. -/
theorem irsdk_get_new_data_tick_regression_witness :
    (irsdk_get_new_data true 1 [3] (fun _ => (3 : Int)) true 1000).ret = false ∧
      (irsdk_get_new_data true 1 [3] (fun _ => (3 : Int)) true 1000).lastTickCount = 3 ∧
      (irsdk_get_new_data true 1 [3] (fun _ => (3 : Int)) true 1000).copies = 0 := by
  have h := irsdk_get_new_data_tick_regression 1 1000 [3] (fun _ => (3 : Int)) true
    (by decide) (by decide)
  exact ⟨h.1, h.2.1.trans (by decide), h.2.2⟩

/-- Invariant proof for the selection loop: folding `latestStep` over the
index range `s, s+1, ..., length-1` starting from an accumulator that is the
first maximum of the prefix `0..s-1` yields the first index of a maximal tick
count of the whole list. -/
theorem foldl_latestStep_spec (ticks : List Int) :
    ∀ (n s latest : Nat), s + n = ticks.length → latest < s →
      (∀ j, j < s → ticks.getD j 0 ≤ ticks.getD latest 0) →
      (∀ j, j < latest → ticks.getD j 0 < ticks.getD latest 0) →
      ((List.range' s n).foldl (latestStep ticks) latest < ticks.length ∧
        (∀ j, j < ticks.length →
          ticks.getD j 0 ≤ ticks.getD ((List.range' s n).foldl (latestStep ticks) latest) 0) ∧
        (∀ j, j < (List.range' s n).foldl (latestStep ticks) latest →
          ticks.getD j 0 < ticks.getD ((List.range' s n).foldl (latestStep ticks) latest) 0)) := by
  intro n
  induction n with
  | zero =>
    intro s latest hs hls h2 h3
    simp only [List.range'_zero, List.foldl_nil]
    refine ⟨?_, ?_, h3⟩
    · omega
    · intro j hj
      exact h2 j (by omega)
  | succ n ih =>
    intro s latest hs hls h2 h3
    rw [List.range'_succ, List.foldl_cons]
    by_cases hcmp : ticks.getD latest 0 < ticks.getD s 0
    · have hstep : latestStep ticks latest s = s := by
        unfold latestStep; rw [if_pos hcmp]
      rw [hstep]
      refine ih (s + 1) s (by omega) (by omega) ?_ ?_
      · intro j hj
        rcases Nat.lt_succ_iff_lt_or_eq.mp hj with hj' | hj'
        · exact le_of_lt (lt_of_le_of_lt (h2 j hj') hcmp)
        · subst hj'; exact le_refl _
      · intro j hj
        exact lt_of_le_of_lt (h2 j hj) hcmp
    · have hstep : latestStep ticks latest s = latest := by
        unfold latestStep; rw [if_neg hcmp]
      rw [hstep]
      refine ih (s + 1) latest (by omega) (by omega) ?_ h3
      intro j hj
      rcases Nat.lt_succ_iff_lt_or_eq.mp hj with hj' | hj'
      · exact h2 j hj'
      · subst hj'; exact not_lt.mp hcmp

/-- C4: with the connected bit set, `irsdk_get_new_data` selects (via
`findLatestBuf`, its selection loop) the buffer descriptor with the highest
tick count among the first `num_buf` descriptors, ties broken in favour of
the lowest slot index: the selected index is in range, its tick count is
maximal, and every strictly earlier slot has a strictly smaller tick count. -/
theorem findLatestBuf_selects_max_lowest_index (ticks : List Int)
    (hne : 0 < ticks.length) :
    findLatestBuf ticks < ticks.length ∧
      (∀ j, j < ticks.length →
        ticks.getD j 0 ≤ ticks.getD (findLatestBuf ticks) 0) ∧
      (∀ j, j < findLatestBuf ticks →
        ticks.getD j 0 < ticks.getD (findLatestBuf ticks) 0) := by
  have h := foldl_latestStep_spec ticks (ticks.length - 1) 1 0 (by omega)
    (by omega) (fun j hj => by interval_cases j; exact le_refl _)
    (fun j hj => absurd hj (Nat.not_lt_zero j))
  exact h

/-- Witness for C4: ticks `[2, 7, 7, 1]` — slot 1 is selected: in range,
maximal, and slot 0 is strictly smaller. -/
theorem findLatestBuf_selects_max_lowest_index_witness :
    findLatestBuf [2, 7, 7, 1] = 1 ∧
      findLatestBuf [2, 7, 7, 1] < 4 ∧
      [2, 7, 7, 1].getD 2 0 ≤ [(2 : Int), 7, 7, 1].getD (findLatestBuf [2, 7, 7, 1]) 0 := by
  have h := findLatestBuf_selects_max_lowest_index [2, 7, 7, 1] (by decide)
  exact ⟨by decide, h.1, h.2.1 2 (by decide)⟩

/- ------------------------------------------------------------------ -/
/- Variable directory: name lookup and typed accessors (irsdk.c)       -/
/- ------------------------------------------------------------------ -/

/-- `IRSDK_MAX_STRING`: size of the fixed-length name field. -/
def IRSDK_MAX_STRING : Nat := 32

/-- `strncmp(a, b, n) == 0` for NUL-terminated C strings represented as the
char lists of their bytes before the terminator: the comparison stops at the
first difference, at a terminator (end of list), or after `n` characters. -/
def cstrncmpEq (a b : List Char) (n : Nat) : Bool :=
  match n, a, b with
  | 0, _, _ => true
  | _ + 1, [], [] => true
  | _ + 1, [], _ :: _ => false
  | _ + 1, _ :: _, [] => false
  | n + 1, x :: xs, y :: ys => x = y && cstrncmpEq xs ys n

/-- One Variable Descriptor (`irsdk_VarHeader` in irsdk_defines.h); the
padding bytes are immaterial and omitted. -/
structure irsdk_VarHeader where
  type : Int
  offset : Int
  count : Int
  count_as_time : Bool
  name : List Char
  desc : List Char
  unit : List Char
deriving DecidableEq, Repr

/-- A descriptor used only as the `getD` default in statements. -/
def dummyVarHeader : irsdk_VarHeader :=
  { type := 0, offset := 0, count := 0, count_as_time := false,
    name := [], desc := [], unit := [] }

/-- The scan loop of `irsdk_var_name_to_index`: walks the descriptor table
returning the running index `i` at the first descriptor whose 32-byte name
field `strncmp`-equals `nm`, and -1 when the table is exhausted. -/
def varIdxLoop (nm : List Char) : List irsdk_VarHeader → Nat → Int
  | [], _ => -1
  | v :: rest, i =>
    if cstrncmpEq nm v.name IRSDK_MAX_STRING then (i : Int)
    else varIdxLoop nm rest (i + 1)

/-- The scan loop of `irsdk_var_name_to_offset`: same walk, but returns the
matching descriptor's `offset` field. -/
def varOffLoop (nm : List Char) : List irsdk_VarHeader → Int
  | [] => -1
  | v :: rest =>
    if cstrncmpEq nm v.name IRSDK_MAX_STRING then v.offset
    else varOffLoop nm rest

/-- Shallow embedding of `irsdk_var_name_to_index`: `ready` is
`g_is_initialized && g_header != NULL`; `name` is `none` for a NULL pointer;
`vars` is the descriptor table (its length is `num_vars`). -/
def irsdk_var_name_to_index (ready : Bool) (vars : List irsdk_VarHeader)
    (name : Option (List Char)) : Int :=
  match name with
  | none => -1
  | some nm => if ready then varIdxLoop nm vars 0 else -1

/-- Shallow embedding of `irsdk_var_name_to_offset`. -/
def irsdk_var_name_to_offset (ready : Bool) (vars : List irsdk_VarHeader)
    (name : Option (List Char)) : Int :=
  match name with
  | none => -1
  | some nm => if ready then varOffLoop nm vars else -1

/-- Joint characterisation of the two scan loops, by induction on the
table: either no descriptor matches and both loops yield -1, or both stop at
the first matching index `j`, the index loop returning `i + j` and the
offset loop returning that descriptor's offset. -/
theorem varLoop_spec (nm : List Char) : ∀ (vars : List irsdk_VarHeader) (i : Nat),
    (varIdxLoop nm vars i = -1 ∧ varOffLoop nm vars = -1 ∧
      ∀ j, j < vars.length →
        cstrncmpEq nm (vars.getD j dummyVarHeader).name IRSDK_MAX_STRING = false) ∨
    (∃ j, j < vars.length ∧
      varIdxLoop nm vars i = ((i + j : Nat) : Int) ∧
      varOffLoop nm vars = (vars.getD j dummyVarHeader).offset ∧
      cstrncmpEq nm (vars.getD j dummyVarHeader).name IRSDK_MAX_STRING = true ∧
      ∀ k, k < j →
        cstrncmpEq nm (vars.getD k dummyVarHeader).name IRSDK_MAX_STRING = false) := by
  intro vars
  induction vars with
  | nil =>
    intro i
    exact Or.inl ⟨rfl, rfl, fun j hj => absurd hj (Nat.not_lt_zero j)⟩
  | cons v rest ih =>
    intro i
    by_cases hm : cstrncmpEq nm v.name IRSDK_MAX_STRING = true
    · refine Or.inr ⟨0, Nat.succ_pos _, ?_, ?_, hm, fun k hk => absurd hk (Nat.not_lt_zero k)⟩
      · simp only [varIdxLoop]; rw [if_pos hm, Nat.add_zero]
      · simp only [varOffLoop]; rw [if_pos hm]; rfl
    · have hm' : cstrncmpEq nm v.name IRSDK_MAX_STRING = false :=
        Bool.not_eq_true _ ▸ eq_false_of_ne_true hm
      have hidx : varIdxLoop nm (v :: rest) i = varIdxLoop nm rest (i + 1) := by
        simp only [varIdxLoop]; rw [if_neg hm]
      have hoff : varOffLoop nm (v :: rest) = varOffLoop nm rest := by
        simp only [varOffLoop]; rw [if_neg hm]
      rcases ih (i + 1) with ⟨h1, h2, h3⟩ | ⟨j, hj, h1, h2, h3, h4⟩
      · refine Or.inl ⟨hidx.trans h1, hoff.trans h2, ?_⟩
        intro j hj
        cases j with
        | zero => exact hm'
        | succ j' => exact h3 j' (Nat.lt_of_succ_lt_succ hj)
      · refine Or.inr ⟨j + 1, Nat.succ_lt_succ hj, ?_, hoff.trans h2, h3, ?_⟩
        · rw [hidx, h1]; congr 1; omega
        · intro k hk
          cases k with
          | zero => exact hm'
          | succ k' => exact h4 k' (Nat.lt_of_succ_lt_succ hk)

/-- C9: for every queried name, `irsdk_var_name_to_index` returns the lowest
index below `num_vars` whose descriptor's fixed-length name field
`strncmp`-matches the name (and -1 when none does), and
`irsdk_var_name_to_offset` returns the `offset` field of the descriptor at
exactly that index; provided the table's offset fields are non-negative (as
byte offsets into a buffer are), the offset lookup returns -1 precisely when
the index lookup returns -1. -/
theorem var_name_lookup_spec (vars : List irsdk_VarHeader) (nm : List Char)
    (hoff : ∀ v ∈ vars, 0 ≤ v.offset) :
    ((irsdk_var_name_to_index true vars (some nm) = -1 ∧
        irsdk_var_name_to_offset true vars (some nm) = -1 ∧
        ∀ j, j < vars.length →
          cstrncmpEq nm (vars.getD j dummyVarHeader).name IRSDK_MAX_STRING = false) ∨
      (∃ j, j < vars.length ∧
        irsdk_var_name_to_index true vars (some nm) = (j : Int) ∧
        irsdk_var_name_to_offset true vars (some nm) = (vars.getD j dummyVarHeader).offset ∧
        cstrncmpEq nm (vars.getD j dummyVarHeader).name IRSDK_MAX_STRING = true ∧
        ∀ k, k < j →
          cstrncmpEq nm (vars.getD k dummyVarHeader).name IRSDK_MAX_STRING = false)) ∧
    (irsdk_var_name_to_offset true vars (some nm) = -1 ↔
      irsdk_var_name_to_index true vars (some nm) = -1) := by
  have hidx : irsdk_var_name_to_index true vars (some nm) = varIdxLoop nm vars 0 := rfl
  have hoffe : irsdk_var_name_to_offset true vars (some nm) = varOffLoop nm vars := rfl
  rcases varLoop_spec nm vars 0 with ⟨h1, h2, h3⟩ | ⟨j, hj, h1, h2, h3, h4⟩
  · refine ⟨Or.inl ⟨hidx.trans h1, hoffe.trans h2, h3⟩, ?_⟩
    rw [hidx, hoffe, h1, h2]
  · have hjmem : vars.getD j dummyVarHeader ∈ vars := by
      rw [List.getD_eq_getElem _ _ hj]
      exact List.getElem_mem hj
    have hoffj : 0 ≤ (vars.getD j dummyVarHeader).offset := hoff _ hjmem
    refine ⟨Or.inr ⟨j, hj, by rw [hidx, h1, Nat.zero_add], hoffe.trans h2, h3, h4⟩, ?_⟩
    rw [hidx, hoffe, h1, h2, Nat.zero_add]
    constructor
    · intro hcon; omega
    · intro hcon; omega

/-- A two-descriptor table for the C9 witness. -/
def demoVarTable : List irsdk_VarHeader :=
  [{ type := 4, offset := 16, count := 1, count_as_time := false,
     name := "RPM".toList, desc := [], unit := [] },
   { type := 4, offset := 4, count := 1, count_as_time := false,
     name := "Speed".toList, desc := [], unit := [] }]

/-- Witness for C9: looking up `Speed` in the demo table, the offset lookup
agrees with the index lookup on (non-)failure, and both resolve slot 1. -/
theorem var_name_lookup_spec_witness :
    (irsdk_var_name_to_offset true demoVarTable (some ("Speed".toList)) = -1 ↔
      irsdk_var_name_to_index true demoVarTable (some ("Speed".toList)) = -1) ∧
    irsdk_var_name_to_index true demoVarTable (some ("Speed".toList)) = 1 ∧
    irsdk_var_name_to_offset true demoVarTable (some ("Speed".toList)) = 4 :=
  ⟨(var_name_lookup_spec demoVarTable ("Speed".toList) (by decide)).2,
   by decide, by decide⟩

/-- A frame buffer modelled as byte memory: the byte the C program would read
at byte index `a` from the `data` pointer (indices may be negative because
the C accessors do unchecked pointer arithmetic). -/
def readU8 (m : Int → Nat) (a : Int) : Nat := m a % 256

/-- Little-endian 32-bit load, as the C cast `*(const int *)(data + off)`
reads it on the target platform (x86 Windows). -/
def readU32 (m : Int → Nat) (a : Int) : Nat :=
  readU8 m a + 256 * (readU8 m (a + 1) + 256 * (readU8 m (a + 2) + 256 * readU8 m (a + 3)))

/-- Little-endian 64-bit load. -/
def readU64 (m : Int → Nat) (a : Int) : Nat :=
  readU32 m a + 4294967296 * readU32 m (a + 4)

/-- Two's-complement reinterpretation of a 32-bit load as a C `int`. -/
def toInt32 (n : Nat) : Int :=
  if n % 4294967296 < 2147483648 then (n % 4294967296 : Nat)
  else (n % 4294967296 : Nat) - 4294967296

/-- `irsdk_get_var_bool`: `((const bool *)(data + var_offset))[entry]` when
`data` is non-null and `var_offset >= 0`, else `false`.  A stored C `bool`
byte is truthy iff non-zero. -/
def irsdk_get_var_bool (data : Option (Int → Nat)) (var_offset entry : Int) : Bool :=
  match data with
  | some m => if 0 ≤ var_offset then readU8 m (var_offset + entry) ≠ 0 else false
  | none => false

/-- `irsdk_get_var_int`: `((const int *)(data + var_offset))[entry]` when the
guard holds, else `0`. -/
def irsdk_get_var_int (data : Option (Int → Nat)) (var_offset entry : Int) : Int :=
  match data with
  | some m =>
    if 0 ≤ var_offset then toInt32 (readU32 m (var_offset + 4 * entry)) else 0
  | none => 0

/-- `irsdk_get_var_float`: the 32-bit IEEE-754 pattern of
`((const float *)(data + var_offset))[entry]` when the guard holds, else the
pattern of `0.0f`, which is `0`.  Returning the raw pattern avoids modelling
float arithmetic; the C function performs none. -/
def irsdk_get_var_float (data : Option (Int → Nat)) (var_offset entry : Int) : Nat :=
  match data with
  | some m => if 0 ≤ var_offset then readU32 m (var_offset + 4 * entry) else 0
  | none => 0

/-- `irsdk_get_var_double`: the 64-bit IEEE-754 pattern of
`((const double *)(data + var_offset))[entry]` when the guard holds, else the
pattern of `0.0`, which is `0`. -/
def irsdk_get_var_double (data : Option (Int → Nat)) (var_offset entry : Int) : Nat :=
  match data with
  | some m => if 0 ≤ var_offset then readU64 m (var_offset + 8 * entry) else 0
  | none => 0

/-- C10: each typed accessor returns its type's zero default (`false`, `0`,
the bit pattern of `0.0f`, the bit pattern of `0.0`) whenever the data
pointer is null or the variable offset is negative, for every entry index:
the null-pointer case holds for every offset, non-negative ones included,
and the negative-offset case for every (non-null) memory; in particular a
call with an unresolved offset (-1) is a total, well-defined read of the
default value. -/
theorem typed_accessors_guard_defaults (m : Int → Nat) (var_offset entry : Int) :
    (irsdk_get_var_bool none var_offset entry = false ∧
      irsdk_get_var_int none var_offset entry = 0 ∧
      irsdk_get_var_float none var_offset entry = 0 ∧
      irsdk_get_var_double none var_offset entry = 0) ∧
    (var_offset < 0 →
      (irsdk_get_var_bool (some m) var_offset entry = false ∧
        irsdk_get_var_int (some m) var_offset entry = 0 ∧
        irsdk_get_var_float (some m) var_offset entry = 0 ∧
        irsdk_get_var_double (some m) var_offset entry = 0)) := by
  refine ⟨⟨rfl, rfl, rfl, rfl⟩, fun hneg => ?_⟩
  have hn : ¬ (0 ≤ var_offset) := not_le.mpr hneg
  refine ⟨?_, ?_, ?_, ?_⟩
  · simp only [irsdk_get_var_bool]; rw [if_neg hn]
  · simp only [irsdk_get_var_int]; rw [if_neg hn]
  · simp only [irsdk_get_var_float]; rw [if_neg hn]
  · simp only [irsdk_get_var_double]; rw [if_neg hn]

/-- Witness for C10: offset -1 (an unresolved variable) with a non-trivial
memory, and a null data pointer with a non-negative offset. -/
theorem typed_accessors_guard_defaults_witness :
    irsdk_get_var_bool (some (fun _ => 255)) (-1) 3 = false ∧
      irsdk_get_var_int (some (fun _ => 255)) (-1) 3 = 0 ∧
      irsdk_get_var_float (some (fun _ => 255)) (-1) 3 = 0 ∧
      irsdk_get_var_double (some (fun _ => 255)) (-1) 3 = 0 ∧
      irsdk_get_var_int none 8 0 = 0 :=
  ⟨((typed_accessors_guard_defaults (fun _ => 255) (-1) 3).2 (by decide)).1,
   ((typed_accessors_guard_defaults (fun _ => 255) (-1) 3).2 (by decide)).2.1,
   ((typed_accessors_guard_defaults (fun _ => 255) (-1) 3).2 (by decide)).2.2.1,
   ((typed_accessors_guard_defaults (fun _ => 255) (-1) 3).2 (by decide)).2.2.2,
   (typed_accessors_guard_defaults (fun _ => 255) 8 0).1.2.1⟩

/- ------------------------------------------------------------------ -/
/- Session metadata parser: yaml_parse and wrappers (yaml_parser.c)    -/
/- ------------------------------------------------------------------ -/

/-- The parser state machine states (`yaml_state` in yaml_parser.c). -/
inductive YState
  | space
  | key
  | keysep
  | value
  | newline
deriving DecidableEq, Repr

/-- The local variables of `yaml_parse` while scanning: `pos` is the offset
of the current character from the start of `data` (the C `data` cursor);
`keystr`/`valuestr` are the offsets the C key/value pointers hold (`none`
for NULL); `pathptr` is the offset of the C path cursor from the start of
`path`. -/
structure YCfg where
  depth : Nat
  state : YState
  keystr : Option Nat
  keylen : Nat
  valuestr : Option Nat
  valuelen : Nat
  pathptr : Nat
  pathdepth : Nat
  pos : Nat
deriving DecidableEq, Repr

/-- Outcome of consuming one character: either the function returns (with
`none` for `return false` and `some (val, len)` for `return true`), or the
scan continues in a new configuration. -/
inductive YStepRes
  | done (r : Option (Option Nat × Nat))
  | next (c : YCfg)
deriving DecidableEq, Repr

/-- Entry configuration of `yaml_parse`. -/
def yamlInit : YCfg :=
  { depth := 0, state := .space, keystr := none, keylen := 0,
    valuestr := none, valuelen := 0, pathptr := 0, pathdepth := 0, pos := 0 }

/-- The `keylen` characters starting at the key pointer (what
`strncmp(keystr, ..., keylen)` inspects on the data side). -/
def keyChars (data : List Char) (c : YCfg) : List Char :=
  match c.keystr with
  | some p => (data.drop p).take c.keylen
  | none => []

/-- The `valuelen` characters starting at the value pointer. -/
def valChars (data : List Char) (c : YCfg) : List Char :=
  match c.valuestr with
  | some p => (data.drop p).take c.valuelen
  | none => []

/-- Length of the brace match literal: the C loop
`while (*(pathptr+pathvaluelen) && *(pathptr+pathvaluelen) != '\x7d') pathvaluelen++;`
counts the characters from `start` up to the closing brace or the end of the
path; this equals `pathvaluelen - (keylen + 1)`. -/
def braceLitLen (path : List Char) (start : Nat) : Nat :=
  ((path.drop start).takeWhile (fun ch => ch ≠ '}')).length

/-- End-of-line resets (`depth = 0; keylen = 0; valuelen = 0;` then
`state = YAML_STATE_NEWLINE`), advancing past the newline character.
`keystr`, `valuestr`, `pathptr` and `pathdepth` are deliberately not reset,
exactly as in the C code. -/
def lineEndReset (c : YCfg) : YCfg :=
  { c with depth := 0, keylen := 0, valuelen := 0, state := .newline,
           pos := c.pos + 1 }

/-- The accepted-key tail of the newline case: `pathptr += keylen;
pathdepth = depth;` then, if the whole path is consumed, return the value
span, else carry on with the line resets. -/
def yamlAccept (_data path : List Char) (c : YCfg) : YStepRes :=
  let c1 := { c with pathptr := c.pathptr + c.keylen, pathdepth := c.depth }
  if path.length ≤ c1.pathptr then .done (some (c.valuestr, c.valuelen))
  else .next (lineEndReset c1)

/-- One iteration of the `while (*data)` loop of `yaml_parse`: the `switch`
on the current character.  The key-match test is
`keylen && 0 == strncmp(keystr, pathptr, keylen)`, which (both operands
being NUL-free in their compared ranges) holds iff the key is an initial run
of the remaining path; `*(pathptr + keylen) == '\x7b'` reads `'\x00'` at the
end of the path. -/
def yamlStep (data path : List Char) (c : YCfg) (ch : Char) : YStepRes :=
  if ch = ' ' then
    let c1 := if c.state = .newline then { c with state := .space } else c
    let c2 :=
      if c1.state = .space then { c1 with depth := c1.depth + 1 }
      else if c1.state = .key then { c1 with keylen := c1.keylen + 1 }
      else if c1.state = .value then { c1 with valuelen := c1.valuelen + 1 }
      else c1
    .next { c2 with pos := c2.pos + 1 }
  else if ch = '-' then
    let c1 := if c.state = .newline then { c with state := .space } else c
    let c2 :=
      if c1.state = .space then { c1 with depth := c1.depth + 1 }
      else if c1.state = .key then { c1 with keylen := c1.keylen + 1 }
      else if c1.state = .value then { c1 with valuelen := c1.valuelen + 1 }
      else if c1.state = .keysep then
        { c1 with state := .value, valuestr := some c1.pos, valuelen := 1 }
      else c1
    .next { c2 with pos := c2.pos + 1 }
  else if ch = ':' then
    let c1 :=
      if c.state = .key then { c with state := .keysep, keylen := c.keylen + 1 }
      else if c.state = .keysep then { c with state := .value, valuestr := some c.pos }
      else if c.state = .value then { c with valuelen := c.valuelen + 1 }
      else c
    .next { c1 with pos := c1.pos + 1 }
  else if ch = '\n' ∨ ch = '\r' then
    if c.state ≠ .newline then
      if c.depth < c.pathdepth then
        .done none
      else if c.keylen ≠ 0 ∧ (path.drop c.pathptr).take c.keylen = keyChars data c then
        if path.getD (c.pathptr + c.keylen) '\x00' = '{' then
          if c.valuelen = braceLitLen path (c.pathptr + c.keylen + 1) ∧
              valChars data c
                = (path.drop (c.pathptr + c.keylen + 1)).take
                    (braceLitLen path (c.pathptr + c.keylen + 1)) then
            yamlAccept data path { c with pathptr := c.pathptr + c.valuelen + 2 }
          else .next (lineEndReset c)
        else yamlAccept data path c
      else .next (lineEndReset c)
    else .next { c with state := .newline, pos := c.pos + 1 }
  else
    let c1 :=
      if c.state = .space ∨ c.state = .newline then
        { c with state := .key, keystr := some c.pos, keylen := 0 }
      else c
    let c2 :=
      if c1.state = .keysep then
        { c1 with state := .value, valuestr := some c1.pos, valuelen := 0 }
      else c1
    let c3 := if c2.state = .key then { c2 with keylen := c2.keylen + 1 } else c2
    let c4 := if c3.state = .value then { c3 with valuelen := c3.valuelen + 1 } else c3
    .next { c4 with pos := c4.pos + 1 }

/-- The `while (*data)` loop: consume `rest` one character at a time until
a return happens or the string ends (`return false`). -/
def yamlRun (data path : List Char) : YCfg → List Char → Option (Option Nat × Nat)
  | _, [] => none
  | c, ch :: rest =>
    match yamlStep data path c ch with
    | .done r => r
    | .next c' => yamlRun data path c' rest

/-- Shallow embedding of `yaml_parse` (yaml_parser.c): `none` for a false
return, `some (val, len)` for a true return, where `val` is the offset of
the value span in `data` (`none` for the NULL pointer) and `len` its
length.  The C NULL checks on the out-parameters have no counterpart here
because outputs are returned. -/
def yaml_parse (data path : List Char) : Option (Option Nat × Nat) :=
  yamlRun data path yamlInit data

/-- `isspace` of the C locale, as used by `atoi`/`atof` on the copied span. -/
def isCSpace (ch : Char) : Bool :=
  ch = ' ' ∨ ch = '\t' ∨ ch = '\n' ∨ ch = '\x0b' ∨ ch = '\x0c' ∨ ch = '\r'

/-- Decimal accumulation over a run of digits, stopping at the first
non-digit (the core of `atoi`; C overflow behaviour is undefined, so the
value is modelled exactly). -/
def digitsAcc (acc : Int) : List Char → Int
  | [] => acc
  | ch :: rest =>
    if ch.isDigit then digitsAcc (acc * 10 + ((ch.toNat - 48 : Nat) : Int)) rest
    else acc

/-- Modelled from the spec of the C library `atoi` (not part of this
repository): skip C whitespace, read an optional sign and a digit run. -/
def atoi (s : List Char) : Int :=
  match s.dropWhile isCSpace with
  | '-' :: rest => - digitsAcc 0 rest
  | '+' :: rest => digitsAcc 0 rest
  | other => digitsAcc 0 other

/-- Value of a digit list read in base 10. -/
def natOfDigits (l : List Char) : Nat :=
  l.foldl (fun a ch => a * 10 + (ch.toNat - 48)) 0

/-- Modelled from the spec of the C library `atof` (not part of this
repository): the exact rational value of the decimal form
`[ws][sign]digits[.digits][e|E[sign]digits]`.  Rounding to the binary
float/double and the hex/inf/nan forms are outside the model; the claims
touch only the value 0, which is exact. -/
def atofQ (s : List Char) : ℚ :=
  let s1 := s.dropWhile isCSpace
  let sign : ℚ := if s1.headD ' ' = '-' then -1 else 1
  let s2 := if s1.headD ' ' = '-' ∨ s1.headD ' ' = '+' then s1.drop 1 else s1
  let ip := s2.takeWhile Char.isDigit
  let s3 := s2.dropWhile Char.isDigit
  let fp := if s3.headD ' ' = '.' then (s3.drop 1).takeWhile Char.isDigit else []
  let s4 := if s3.headD ' ' = '.' then (s3.drop 1).dropWhile Char.isDigit else s3
  let s5 := if s4.headD ' ' = 'e' ∨ s4.headD ' ' = 'E' then s4.drop 1 else []
  let esign : Int := if s5.headD ' ' = '-' then -1 else 1
  let s6 := if s5.headD ' ' = '-' ∨ s5.headD ' ' = '+' then s5.drop 1 else s5
  let ed := s6.takeWhile Char.isDigit
  let mant : ℚ := (natOfDigits (ip ++ fp) : ℚ)
  let expo : Int := esign * (natOfDigits ed : Int) - (fp.length : Int)
  sign * mant * (10 : ℚ) ^ expo

/-- Shallow embedding of `yaml_parse_string`: the returned buffer content is
`none` when the C function leaves the caller's buffer untouched
(`buf_size <= 0`; a NULL `buf` behaves the same) and `some` its chars up to
the written terminator otherwise.  `copy_len = (len < buf_size - 1) ? len :
buf_size - 1`. -/
def yaml_parse_string (data path : List Char) (bufSize : Nat) :
    Bool × Option (List Char) :=
  if bufSize = 0 then (false, none)
  else
    match yaml_parse data path with
    | some (some vp, len) =>
      if 0 < len then
        (true, some ((data.drop vp).take (if len < bufSize - 1 then len else bufSize - 1)))
      else (false, some [])
    | some (none, _) => (false, some [])
    | none => (false, some [])

/-- Shallow embedding of `yaml_parse_int`: `*value = 0`, then on a found,
non-empty span of a non-NULL pointer, `atoi` of the span truncated to the
63-char temporary. -/
def yaml_parse_int (data path : List Char) : Bool × Int :=
  match yaml_parse data path with
  | some (some vp, len) =>
    if 0 < len then
      (true, atoi ((data.drop vp).take (if len < 63 then len else 63)))
    else (false, 0)
  | some (none, _) => (false, 0)
  | none => (false, 0)

/-- Shallow embedding of `yaml_parse_float` (`*value = (float)atof(temp)`),
with the stored number modelled as the exact rational `atof` value before
rounding to `float`. -/
def yaml_parse_float (data path : List Char) : Bool × ℚ :=
  match yaml_parse data path with
  | some (some vp, len) =>
    if 0 < len then
      (true, atofQ ((data.drop vp).take (if len < 63 then len else 63)))
    else (false, 0)
  | some (none, _) => (false, 0)
  | none => (false, 0)

/-- Shallow embedding of `yaml_parse_double` (`*value = atof(temp)`). -/
def yaml_parse_double (data path : List Char) : Bool × ℚ :=
  match yaml_parse data path with
  | some (some vp, len) =>
    if 0 < len then
      (true, atofQ ((data.drop vp).take (if len < 63 then len else 63)))
    else (false, 0)
  | some (none, _) => (false, 0)
  | none => (false, 0)

/-- The metadata text of end-to-end scenario 3. -/
def scenario3Data : List Char := "WeekendInfo:\n  TrackName: Texas\n".toList

/-- A metadata block with two Drivers list entries whose matching values are
CarIdx 0 and CarIdx 1 (end-to-end scenario 4). -/
def scenario4Data : List Char :=
  "Drivers:\n- CarIdx: 0\n  UserName: Alice\n- CarIdx: 1\n  UserName: Bob\n".toList

/-- C5: evaluating `yaml_parse` at the scenario-3 metadata shows the claim's
path `WeekendInfo:TrackName` is NOT found (the parser counts the trailing
colon into every matched key, so a path's final segment must also end in a
colon), while the colon-terminated path yields exactly the span `Texas` of
length 5 starting at offset 26.  The code's own header comment and its
callers in `main.c` use colon-less paths, which therefore can never match:
the claim documents the intended behaviour and the code diverges from it. -/
theorem yaml_parse_scenario3_evaluation :
    yaml_parse scenario3Data "WeekendInfo:TrackName".toList = none ∧
      yaml_parse scenario3Data "WeekendInfo:TrackName:".toList = some (some 26, 5) ∧
      (scenario3Data.drop 26).take 5 = "Texas".toList := by
  refine ⟨by decide, by decide, by decide⟩

/-- C6 counterexample: on the scenario-4 metadata, the claim's path
`Drivers:{1}UserName` is not found at all (the implemented grammar requires
the matching key to be named before the brace literal, and every segment to
carry its colon), so the claimed span of the second entry's UserName is not
returned. -/
theorem yaml_parse_brace_path_counterexample :
    yaml_parse scenario4Data "Drivers:{1}UserName".toList = none := by
  decide

/-- C6 amended: with the implemented brace-path grammar
`Drivers:CarIdx:{1}UserName:`, `yaml_parse` returns exactly the second
entry's UserName span (`Bob`); a brace literal matching no entry (`9` here)
is not found; and in general a line whose value differs from the brace
literal (in length or content) never advances the path cursor: the newline
step only performs the line-end resets. -/
theorem yaml_parse_brace_path_amended :
    yaml_parse scenario4Data "Drivers:CarIdx:{1}UserName:".toList = some (some 63, 3) ∧
      (scenario4Data.drop 63).take 3 = "Bob".toList ∧
      yaml_parse scenario4Data "Drivers:CarIdx:{9}UserName:".toList = none ∧
      ∀ (data path : List Char) (c : YCfg) (ch : Char),
        ch = '\n' ∨ ch = '\r' → c.state ≠ .newline → ¬ c.depth < c.pathdepth →
        path.getD (c.pathptr + c.keylen) '\x00' = '{' →
        ¬ (c.valuelen = braceLitLen path (c.pathptr + c.keylen + 1) ∧
            valChars data c = (path.drop (c.pathptr + c.keylen + 1)).take
              (braceLitLen path (c.pathptr + c.keylen + 1))) →
        yamlStep data path c ch = .next (lineEndReset c) := by
  refine ⟨by decide, by decide, by decide, ?_⟩
  intro data path c ch hch hstate hdepth hbrace hmm
  have hsp : ¬ ch = ' ' := by rcases hch with h | h <;> subst h <;> decide
  have hda : ¬ ch = '-' := by rcases hch with h | h <;> subst h <;> decide
  have hco : ¬ ch = ':' := by rcases hch with h | h <;> subst h <;> decide
  unfold yamlStep
  rw [if_neg hsp, if_neg hda, if_neg hco, if_pos hch, if_pos hstate, if_neg hdepth]
  by_cases hkm : c.keylen ≠ 0 ∧ (path.drop c.pathptr).take c.keylen = keyChars data c
  · rw [if_pos hkm, if_pos hbrace, if_neg hmm]
  · rw [if_neg hkm]

/-- Witness for the universally quantified part of the amended C6: a line
with value `0` against brace literal `1` leaves the path cursor in place. -/
theorem yaml_parse_brace_path_amended_witness :
    yamlStep "K: 0\n".toList "K:{1}X:".toList
      { depth := 0, state := .value, keystr := some 0, keylen := 2,
        valuestr := some 3, valuelen := 1, pathptr := 0, pathdepth := 0, pos := 4 }
      '\n'
      = .next (lineEndReset
        { depth := 0, state := .value, keystr := some 0, keylen := 2,
          valuestr := some 3, valuelen := 1, pathptr := 0, pathdepth := 0, pos := 4 }) :=
  (yaml_parse_brace_path_amended).2.2.2 "K: 0\n".toList "K:{1}X:".toList
    { depth := 0, state := .value, keystr := some 0, keylen := 2,
      valuestr := some 3, valuelen := 1, pathptr := 0, pathdepth := 0, pos := 4 }
    '\n' (Or.inl rfl) (by decide) (by decide) (by decide) (by decide)

/-- C7: whenever `yaml_parse` does not find the path, `yaml_parse_string`
returns false with the buffer set to the empty string (for any positive
buffer size), and `yaml_parse_int` / `yaml_parse_float` /
`yaml_parse_double` return false leaving the output at 0 (0.0); all four
wrappers are total functions, so a not-found path cannot crash. -/
theorem yaml_wrappers_not_found_defaults (data path : List Char) (bufSize : Nat)
    (hbuf : 0 < bufSize) (hnf : yaml_parse data path = none) :
    yaml_parse_string data path bufSize = (false, some []) ∧
      yaml_parse_int data path = (false, 0) ∧
      yaml_parse_float data path = (false, 0) ∧
      yaml_parse_double data path = (false, 0) := by
  refine ⟨?_, ?_, ?_, ?_⟩
  · unfold yaml_parse_string
    rw [if_neg (Nat.pos_iff_ne_zero.mp hbuf), hnf]
  · unfold yaml_parse_int; rw [hnf]
  · unfold yaml_parse_float; rw [hnf]
  · unfold yaml_parse_double; rw [hnf]

/-- Witness for C7: the path `Zed:` is absent from `A: b`. -/
theorem yaml_wrappers_not_found_defaults_witness :
    yaml_parse_string "A: b\n".toList "Zed:".toList 8 = (false, some []) ∧
      yaml_parse_int "A: b\n".toList "Zed:".toList = (false, 0) ∧
      yaml_parse_float "A: b\n".toList "Zed:".toList = (false, 0) ∧
      yaml_parse_double "A: b\n".toList "Zed:".toList = (false, 0) :=
  yaml_wrappers_not_found_defaults "A: b\n".toList "Zed:".toList 8
    (by decide) (by decide)

/-- C8: at a line boundary (the first newline character after line content),
if the line's indentation depth is below the depth recorded when the last
path segment was matched, `yaml_parse`'s scan returns not-found at once:
the very step yields `return false`, and the run on any remaining document
text `rest` gives `none` without inspecting `rest`. -/
theorem yaml_depth_violation_early_exit (data path : List Char) (c : YCfg)
    (ch : Char) (rest : List Char)
    (hch : ch = '\n' ∨ ch = '\r') (hstate : c.state ≠ .newline)
    (hdepth : c.depth < c.pathdepth) :
    yamlStep data path c ch = .done none ∧
      yamlRun data path c (ch :: rest) = none := by
  have hsp : ¬ ch = ' ' := by rcases hch with h | h <;> subst h <;> decide
  have hda : ¬ ch = '-' := by rcases hch with h | h <;> subst h <;> decide
  have hco : ¬ ch = ':' := by rcases hch with h | h <;> subst h <;> decide
  have hstep : yamlStep data path c ch = .done none := by
    unfold yamlStep
    rw [if_neg hsp, if_neg hda, if_neg hco, if_pos hch, if_pos hstate, if_pos hdepth]
  refine ⟨hstep, ?_⟩
  simp only [yamlRun]
  rw [hstep]

/-- Witness for C8: a mid-key configuration one level too shallow for the
matched path, followed by arbitrary unscanned text. -/
theorem yaml_depth_violation_early_exit_witness :
    yamlRun "B: 1\nrest ignored\n".toList "A:B:".toList
      { depth := 0, state := .key, keystr := some 0, keylen := 2,
        valuestr := none, valuelen := 0, pathptr := 2, pathdepth := 1, pos := 4 }
      ('\n' :: "rest ignored\n".toList) = none :=
  (yaml_depth_violation_early_exit "B: 1\nrest ignored\n".toList "A:B:".toList
    { depth := 0, state := .key, keystr := some 0, keylen := 2,
      valuestr := none, valuelen := 0, pathptr := 2, pathdepth := 1, pos := 4 }
    '\n' ("rest ignored\n".toList) (Or.inl rfl) (by decide) (by decide)).2
